import Mathlib

/-
  Shallow embedding of the metacom RPC client (src/dist/metacom.js and the
  stream-engine module exercised by the tests in src/unnamed/part_000).

  The connection state, the inbound-packet dispatcher `message`, the binary
  dispatcher `binary`, the call registry operations, and the two transport
  bindings are translated from src/dist/metacom.js.  The frame codec (Chunk)
  and the writable stream are modelled from the spec, because lib/streams.js
  is not under src/ (only its test file is).

  Effects are made explicit: each operation returns its successor state
  together with a list of emitted `Effect`s (continuation invocations,
  event emissions, console logs, frames pushed to streams) and an optional
  escaping exception (`DispatchError`) for the places where the JS code can
  throw out of the dispatch routine.
-/

/-- Fixed width of the stream-id header field of a binary frame. -/
def ID_LENGTH : Nat := 4

/-- Modelled from the spec: the Frame Codec `encode` of lib/streams.js is not
under src/.  Spec 4.1: writes streamId into a fixed-width unsigned field,
followed by the payload bytes unmodified.  Big-endian byte order, width
`ID_LENGTH`. -/
def Chunk.encode (streamId : Nat) (payload : List Nat) : List Nat :=
  [streamId / 16777216 % 256, streamId / 65536 % 256,
   streamId / 256 % 256, streamId % 256] ++ payload

/-- Modelled from the spec: the Frame Codec `decode` of lib/streams.js is not
under src/.  Spec 4.1: inverse of encode; fails with a FrameError if the
frame is shorter than the fixed header width. -/
def Chunk.decode (frame : List Nat) : Option (Nat × List Nat) :=
  match frame with
  | b0 :: b1 :: b2 :: b3 :: payload =>
      some (b0 * 16777216 + b1 * 65536 + b2 * 256 + b3, payload)
  | _ => none

/-- Association-list lookup standing in for JS `Map.prototype.get`. -/
def mapLookup (k : Nat) : List (Nat × α) → Option α
  | [] => none
  | (k2, v) :: rest => if k = k2 then some v else mapLookup k rest

/-- Association-list update standing in for JS `Map.prototype.set`. -/
def mapSet (k : Nat) (v : α) : List (Nat × α) → List (Nat × α)
  | [] => [(k, v)]
  | (k2, v2) :: rest =>
      if k = k2 then (k, v) :: rest else (k2, v2) :: mapSet k v rest

/-- Association-list removal standing in for JS `Map.prototype.delete`
(keys of a JS Map are unique, so removing every pair with the key is the
same operation). -/
def mapErase (k : Nat) : List (Nat × α) → List (Nat × α)
  | [] => []
  | (k2, v) :: rest =>
      if k = k2 then mapErase k rest else (k2, v) :: mapErase k rest

/-- A pending-call continuation pair (`[resolve, reject]` in metacom.js);
the tag is the identity of the pair, continuations themselves are opaque. -/
structure CallCont where
  tag : Nat
deriving DecidableEq, Repr

/-- A readable stream registered in the connection stream map; metacom.js
stores exactly the `streamId`, `name`, `size` init data in `new
MetaReadable(streamData)`. -/
structure MetaReadable where
  streamId : Nat
  name : String
  size : Int
deriving DecidableEq, Repr

/-- Connection state of a `Metacom` instance: the fields assigned in the
constructor of `Metacom` (src/dist/metacom.js lines 30-48), with `api`
reduced to the set of loaded interface names and `socket`/`opening`
reduced to identity tokens. `registered` models membership in the
process-wide `connections` set. -/
structure MState where
  callId : Nat
  calls : List (Nat × CallCont)
  streams : List (Nat × MetaReadable)
  streamId : Nat
  eventId : Nat
  api : List String
  active : Bool
  connected : Bool
  opening : Option Nat
  registered : Bool
  socket : Option Nat
  lastActivity : Nat
deriving DecidableEq, Repr

/-- Errors delivered to a pending call continuation. -/
inductive Err where
  | timeout
  | remote (message : String) (code : Nat)
deriving DecidableEq, Repr

/-- Observable side effects of dispatching one inbound unit. -/
inductive Effect where
  | resolve (id : Nat) (v : Nat)
  | reject (id : Nat) (e : Err)
  | emit (iface : String) (event : Option String) (v : Nat)
  | logError (msg : String)
  | warn (msg : String)
  | push (id : Nat) (payload : List Nat)
  | closeStream (id : Nat)
  | terminateStream (id : Nat)
deriving DecidableEq, Repr

/-- An exception escaping the dispatch routine (rejecting the async
function promise in the JS code). -/
inductive DispatchError where
  | typeError
  | frameError
deriving DecidableEq, Repr

/-- A control packet after JSON parsing.  `callType` is the first key of the
object, `callId` the value under it (0 models any falsy id value), `target`
the second key, `args` the value under the second key; `error`, `name`,
`size`, `status` are the fields destructured by name in metacom.js. -/
structure Packet where
  callType : String
  callId : Nat
  target : Option String
  args : Nat
  error : Option (String × Nat)
  name : Option String
  size : Option Int
  status : Option String
deriving DecidableEq, Repr

/-- One inbound textual unit as seen by `Metacom.message`: the literal
heartbeat string, a string JSON.parse throws on, or a parsed packet. -/
inductive Inbound where
  | heartbeat
  | malformed
  | packet (p : Packet)
deriving DecidableEq, Repr

/-- The guard `name && typeof name === 'string'` of metacom.js line 116:
a present, non-empty string (the empty string is falsy in JS). -/
def nameOk (p : Packet) : Bool :=
  match p.name with
  | some s => s ≠ ""
  | none => false

/-- The guard `Number.isSafeInteger(size)`: `size` is present as an
integer. -/
def sizeOk (p : Packet) : Bool := p.size.isSome

/-- `Metacom.message` (src/dist/metacom.js lines 86-137): the dispatcher for
one inbound textual unit.  Returns the successor state, the emitted actions,
and the exception escaping the async function, if any (`target.split` /
`metacomInterface.emit` on `undefined` throw a TypeError). -/
def Metacom.message (st : MState) (now : Nat) (inb : Inbound) :
    MState × List Effect × Option DispatchError :=
  match inb with
  | .heartbeat => (st, [], none)
  | .malformed => ({ st with lastActivity := now }, [], none)
  | .packet p =>
    let st1 := { st with lastActivity := now }
    if p.callId = 0 then (st1, [], none)
    else if p.callType = "callback" then
      match mapLookup p.callId st1.calls with
      | none => (st1, [], none)
      | some _ =>
        let st2 := { st1 with calls := mapErase p.callId st1.calls }
        match p.error with
        | some (m, c) => (st2, [.reject p.callId (.remote m c)], none)
        | none => (st2, [.resolve p.callId p.args], none)
    else if p.callType = "event" then
      match p.target with
      | none => (st1, [], some .typeError)
      | some t =>
        let parts := t.splitOn "/"
        let iname := parts.headD ""
        if iname ∈ st1.api then (st1, [.emit iname parts[1]? p.args], none)
        else (st1, [], some .typeError)
    else if p.callType = "stream" then
      let streamId := p.callId
      let stream := mapLookup streamId st1.streams
      if nameOk p && sizeOk p then
        match stream with
        | some _ => (st1, [.logError "Stream is already initialized"], none)
        | none =>
          match p.name, p.size with
          | some nm, some sz =>
              ({ st1 with
                  streams := mapSet streamId ⟨streamId, nm, sz⟩ st1.streams },
               [], none)
          | _, _ => (st1, [], none)
      else if stream = none then
        (st1, [.logError "Stream is not initialized"], none)
      else if p.status = some "end" then
        ({ st1 with streams := mapErase streamId st1.streams },
         [.closeStream streamId], none)
      else if p.status = some "terminate" then
        ({ st1 with streams := mapErase streamId st1.streams },
         [.terminateStream streamId], none)
      else (st1, [.logError "Stream packet structure error"], none)
    else (st1, [], none)

/-- `Metacom.binary` (src/dist/metacom.js lines 139-146): decodes a binary
frame and pushes the payload to the registered stream, warning when the
stream is unknown.  A frame shorter than the header width makes the decode
throw (a RangeError from the DataView) out of the async function. -/
def Metacom.binary (st : MState) (frame : List Nat) :
    MState × List Effect × Option DispatchError :=
  match Chunk.decode frame with
  | none => (st, [], some .frameError)
  | some (streamId, payload) =>
    match mapLookup streamId st.streams with
    | some _ => (st, [.push streamId payload], none)
    | none => (st, [.warn "Stream is not initialized"], none)

/-- The constructor of `Metacom` (src/dist/metacom.js lines 30-48): all
counters start at 0, both maps empty, no interfaces loaded, `active` and
`connected` false, `lastActivity` set to the current time. -/
def Metacom.init (now : Nat) : MState :=
  { callId := 0, calls := [], streams := [], streamId := 0, eventId := 0,
    api := [], active := false, connected := false, opening := none,
    registered := false, socket := none, lastActivity := now }

/-- `const callId = ++this.callId` in `Metacom.scaffold`
(src/dist/metacom.js line 173): pre-increment the per-connection call
counter and use the incremented value as the new id. -/
def nextCallId (st : MState) : Nat × MState :=
  (st.callId + 1, { st with callId := st.callId + 1 })

/-- `const packet = { event: ++this.eventId, ... }` in `Metacom.load`
(src/dist/metacom.js line 163): pre-increment the per-connection event
counter and use the incremented value as the new id. -/
def nextEventId (st : MState) : Nat × MState :=
  (st.eventId + 1, { st with eventId := st.eventId + 1 })

/-- `this.calls.set(callId, [resolve, reject])` in `Metacom.scaffold`
(src/dist/metacom.js line 185). -/
def registerCall (st : MState) (id : Nat) (c : CallCont) : MState :=
  { st with calls := mapSet id c st.calls }

/-- The body of the `setTimeout` callback armed in `Metacom.scaffold`
(src/dist/metacom.js lines 179-184): when the timer fires, if the call id
is still registered, remove it and reject the pending promise with the
timeout error; otherwise do nothing. -/
def timeoutFire (st : MState) (id : Nat) : MState × List Effect :=
  match mapLookup id st.calls with
  | some _ => ({ st with calls := mapErase id st.calls },
               [.reject id .timeout])
  | none => (st, [])

/-- Iterate `n` call-id assignments starting from a given state. -/
def iterateCallIds : MState → Nat → MState
  | st, 0 => st
  | st, n + 1 => iterateCallIds (nextCallId st).2 n

/-- Iterate `n` event-id assignments starting from a given state. -/
def iterateEventIds : MState → Nat → MState
  | st, 0 => st
  | st, n + 1 => iterateEventIds (nextEventId st).2 n

/-- A control packet sent by the writable side (stream init and status
packets serialized with JSON.stringify in the JS code). -/
inductive OutPacket where
  | streamInit (streamId : Nat) (name : String) (size : Int)
  | streamStatus (streamId : Nat) (status : String)
deriving DecidableEq, Repr

/-- Modelled from the spec: `MetaWritable` of lib/streams.js is not under
src/.  Spec 4.3 and 3: a WritableStream holds its id, name, declared size
and whether a terminal control packet has already been sent
(`finalized`).  Construction immediately sends the
`(stream, name, size)` init control packet. -/
structure MetaWritable where
  streamId : Nat
  name : String
  size : Int
  finalized : Bool
deriving DecidableEq, Repr

/-- Modelled from the spec: constructing a `MetaWritable` (spec 4.3)
returns the stream object, not yet finalized, together with the init
control packet that construction sends through the transport. -/
def MetaWritable.make (streamId : Nat) (name : String) (size : Int) :
    MetaWritable × OutPacket :=
  (⟨streamId, name, size, false⟩, .streamInit streamId name size)

/-- Modelled from the spec: `MetaWritable.write` (spec 4.3): encodes
`(id, chunk)` via the Frame Codec and sends it as one binary unit, then
reports `true`, unless the stream is already finalized, in which case the
write fails with a StreamClosed error.  Returns the list of emitted binary
frames and the accepted flag. -/
def MetaWritable.write (w : MetaWritable) (chunk : List Nat) :
    Except String (List (List Nat) × Bool) :=
  if w.finalized then .error "StreamClosed"
  else .ok ([Chunk.encode w.streamId chunk], true)

/-- `Metacom.getStream` (src/dist/metacom.js lines 56-60): return the
registered stream or throw a lookup error. -/
def Metacom.getStream (st : MState) (streamId : Nat) :
    Except String MetaReadable :=
  match mapLookup streamId st.streams with
  | some s => .ok s
  | none => .error "Stream is not initialized"

/-- `Metacom.createStream` (src/dist/metacom.js lines 62-67): increment the
per-connection stream counter and construct a `MetaWritable` over this
transport; the connection stream map is not touched.  Returns the new
state, the writable and the init packet its construction sends. -/
def Metacom.createStream (st : MState) (name : String) (size : Int) :
    MState × MetaWritable × OutPacket :=
  let streamId := st.streamId + 1
  let st1 := { st with streamId := streamId }
  let (w, pkt) := MetaWritable.make streamId name size
  (st1, w, pkt)

/-- Side effects of the transport layer. -/
inductive TEffect where
  | createSocket
  | socketSend
  | fetchPost
  | openInvoked
  | emitClose
deriving DecidableEq, Repr

/-- Result of `WebsocketTransport.open`: the promise the caller gets. -/
inductive OpenResult where
  | inflight (p : Nat)
  | resolvedNow
  | started (p : Nat)
deriving DecidableEq, Repr

/-- `WebsocketTransport.open` (src/dist/metacom.js lines 194-237): if a
connect operation is in flight, return it; if already connected, resolve
immediately; otherwise create a new socket, mark the connection active,
register it in the process-wide set and store the new in-flight promise
(`newP` is the identity of that fresh promise). -/
def wsOpen (st : MState) (newP : Nat) : MState × OpenResult × List TEffect :=
  match st.opening with
  | some p => (st, .inflight p, [])
  | none =>
    if st.connected then (st, .resolvedNow, [])
    else ({ st with active := true, socket := some newP, registered := true,
                    opening := some newP },
          .started newP, [.createSocket])

/-- The `close` listener installed by `WebsocketTransport.open`
(src/dist/metacom.js lines 207-214): clear the in-flight promise, mark
disconnected, emit the close event, and schedule one reconnect timer for
`reconnectTimeout` milliseconds later.  The returned number is how many
reconnect timers this close event schedules. -/
def closeListener (st : MState) : MState × List TEffect × Nat :=
  ({ st with opening := none, connected := false }, [.emitClose], 1)

/-- The reconnect timer callback scheduled by the close listener
(src/dist/metacom.js lines 211-213): `if (this.active) this.open()`. -/
def reconnectTimerFire (st : MState) (newP : Nat) : MState × List TEffect :=
  if st.active then
    let (st1, _, eff) := wsOpen st newP
    (st1, .openInvoked :: eff)
  else (st, [])

/-- `WebsocketTransport.close` (src/dist/metacom.js lines 239-245): clear
`active`, remove the connection from the process-wide set, close and drop
the socket handle. -/
def wsClose (st : MState) : MState :=
  let st1 := { st with active := false, registered := false }
  match st1.socket with
  | none => st1
  | some _ => { st1 with socket := none }

/-- `WebsocketTransport.send` (src/dist/metacom.js lines 247-251): drop the
unit when not connected; otherwise update `lastActivity` and send on the
socket. -/
def wsSend (st : MState) (now : Nat) : MState × List TEffect :=
  if st.connected then ({ st with lastActivity := now }, [.socketSend])
  else (st, [])

/-- `HttpTransport.send` (src/dist/metacom.js lines 266-277): always update
`lastActivity` and POST the unit. -/
def httpSend (st : MState) (now : Nat) : MState × List TEffect :=
  ({ st with lastActivity := now }, [.fetchPost])

/-- The two transport events that can drive the automatic-reconnect loop
without any user call: the socket close event and a previously scheduled
reconnect timer firing (carrying the identity of the promise a reopen
would create). -/
inductive TransportEv where
  | socketClose
  | timerFires (newP : Nat)
deriving DecidableEq, Repr

/-- One automatic transport event step, collecting the transport effects. -/
def transportStep (st : MState) : TransportEv → MState × List TEffect
  | .socketClose => let (st1, eff, _) := closeListener st; (st1, eff)
  | .timerFires newP => reconnectTimerFire st newP

/-- Run a sequence of automatic transport events, concatenating effects. -/
def runTransport (st : MState) : List TransportEv → MState × List TEffect
  | [] => (st, [])
  | e :: rest =>
    let (st1, eff) := transportStep st e
    let (st2, eff2) := runTransport st1 rest
    (st2, eff ++ eff2)

theorem mapLookup_mapErase_self (k : Nat) (l : List (Nat × α)) :
    mapLookup k (mapErase k l) = none := by
  induction l with
  | nil => rfl
  | cons hd tl ih =>
      obtain ⟨k2, v⟩ := hd
      by_cases h : k = k2
      · simp only [mapErase, if_pos h, ih]
      · simp only [mapErase, if_neg h, mapLookup, if_neg h, ih]

theorem mapLookup_mapErase_ne (k k2 : Nat) (l : List (Nat × α)) (h : k2 ≠ k) :
    mapLookup k2 (mapErase k l) = mapLookup k2 l := by
  induction l with
  | nil => rfl
  | cons hd tl ih =>
      obtain ⟨k3, v⟩ := hd
      by_cases h3 : k = k3
      · subst h3
        simp [mapErase, mapLookup, ih, h]
      · by_cases h4 : k2 = k3
        · simp [mapErase, h3, mapLookup, h4, ih]
        · simp [mapErase, h3, mapLookup, h4, ih]

theorem mapLookup_mapSet_self (k : Nat) (v : α) (l : List (Nat × α)) :
    mapLookup k (mapSet k v l) = some v := by
  induction l with
  | nil => simp [mapSet, mapLookup]
  | cons hd tl ih =>
      obtain ⟨k2, v2⟩ := hd
      by_cases h : k = k2
      · simp [mapSet, h, mapLookup]
      · simp [mapSet, h, mapLookup, ih]

/-- Helper: decoding an encoded frame recovers the id and payload whenever
the id fits the fixed-width header field. -/
theorem chunk_decode_encode (id : Nat) (payload : List Nat)
    (h : id < 4294967296) :
    Chunk.decode (Chunk.encode id payload) = some (id, payload) := by
  simp only [Chunk.encode, List.cons_append, List.nil_append, Chunk.decode]
  congr 1
  congr 1
  omega

/-- C1.  Frame codec round trip: for every stream id that fits the
fixed-width header field and every byte payload, including the empty
payload, decoding the frame produced by encoding yields exactly the
original id and payload. -/
theorem chunk_encode_decode_roundtrip (id : Nat) (payload : List Nat)
    (h : id < 4294967296) :
    Chunk.decode (Chunk.encode id payload) = some (id, payload) :=
  chunk_decode_encode id payload h

/-- Witness for C1 at id 5, payload [7, 0, 255]. -/
theorem chunk_encode_decode_roundtrip_witness :
    5 < 4294967296 ∧
      Chunk.decode (Chunk.encode 5 [7, 0, 255]) = some (5, [7, 0, 255]) :=
  ⟨by decide, chunk_encode_decode_roundtrip 5 [7, 0, 255] (by decide)⟩

/-- C2.  Call timeout race: for a registered call id, when the timeout
timer fires the pending operation is rejected with the timeout error and
the entry is removed; a callback packet for that id arriving afterwards,
and a callback packet for any id that is not registered, is a silent
no-op: no continuation is invoked, no error escapes, no state beyond
`lastActivity` changes. -/
theorem call_timeout_race (st : MState) (now : Nat) (id : Nat)
    (c : CallCont) (p : Packet)
    (hreg : mapLookup id st.calls = some c)
    (hty : p.callType = "callback") (hid : p.callId = id) (hpos : id ≠ 0) :
    (timeoutFire st id).2 = [.reject id .timeout] ∧
    mapLookup id (timeoutFire st id).1.calls = none ∧
    Metacom.message (timeoutFire st id).1 now (.packet p) =
      ({ (timeoutFire st id).1 with lastActivity := now }, [], none) ∧
    ∀ st2 : MState, mapLookup id st2.calls = none →
      Metacom.message st2 now (.packet p) =
        ({ st2 with lastActivity := now }, [], none) := by
  refine ⟨?_, ?_, ?_, ?_⟩
  · simp [timeoutFire, hreg]
  · simp [timeoutFire, hreg, mapLookup_mapErase_self]
  · simp [Metacom.message, timeoutFire, hreg, hty, hid, hpos,
      mapLookup_mapErase_self]
  · intro st2 h2
    simp [Metacom.message, hty, hid, hpos, h2]

/-- Witness for C2: one registered call with id 1, timing out, then a late
callback packet for id 1 is ignored. -/
theorem call_timeout_race_witness :
    (timeoutFire { Metacom.init 0 with calls := [(1, ⟨0⟩)] } 1).2 =
      [.reject 1 .timeout] ∧
    Metacom.message (timeoutFire { Metacom.init 0 with
        calls := [(1, ⟨0⟩)] } 1).1 9
      (.packet ⟨"callback", 1, some "x", 42, none, none, none, none⟩) =
      ({ (timeoutFire { Metacom.init 0 with
            calls := [(1, ⟨0⟩)] } 1).1 with lastActivity := 9 }, [], none) := by
  have h := call_timeout_race { Metacom.init 0 with calls := [(1, ⟨0⟩)] } 9 1
    ⟨0⟩ ⟨"callback", 1, some "x", 42, none, none, none, none⟩
    (by decide) (by decide) (by decide) (by decide)
  exact ⟨h.1, h.2.2.1⟩

/-- Helper: once `active` is false, any sequence of socket-close events and
reconnect-timer firings leaves `active` false and never invokes `open`. -/
theorem runTransport_inactive (st : MState) (evs : List TransportEv)
    (h : st.active = false) :
    (runTransport st evs).1.active = false ∧
      TEffect.openInvoked ∉ (runTransport st evs).2 := by
  induction evs generalizing st with
  | nil => exact ⟨h, by simp [runTransport]⟩
  | cons e rest ih =>
    cases e with
    | socketClose =>
      obtain ⟨h1, h2⟩ := ih { st with opening := none, connected := false } h
      constructor
      · simpa [runTransport, transportStep, closeListener] using h1
      · simp only [runTransport, transportStep, closeListener,
          List.mem_append, List.mem_singleton]
        rintro (hc | hc)
        · cases hc
        · exact h2 hc
    | timerFires newP =>
      obtain ⟨h1, h2⟩ := ih st h
      constructor
      · simpa [runTransport, transportStep, reconnectTimerFire, h] using h1
      · simpa [runTransport, transportStep, reconnectTimerFire, h] using h2

/-- C3.  Reconnection versus explicit close: an unexpected transport close
while the connection is active schedules exactly one reconnect timer and
leaves `active` set, so when the backoff timer fires, `open()` is invoked
automatically exactly once; explicit `close()` clears `active` and
deregisters the connection, after which no sequence of close events and
timer firings ever invokes `open` again. -/
theorem reconnect_vs_explicit_close (st : MState) (newP : Nat)
    (hact : st.active = true) :
    (closeListener st).2.2 = 1 ∧
    (closeListener st).1.active = true ∧
    ((reconnectTimerFire (closeListener st).1 newP).2.count
        TEffect.openInvoked = 1) ∧
    (wsClose st).active = false ∧
    (wsClose st).registered = false ∧
    ∀ evs : List TransportEv,
      TEffect.openInvoked ∉ (runTransport (wsClose st) evs).2 := by
  have hwc : (wsClose st).active = false ∧ (wsClose st).registered = false := by
    unfold wsClose
    cases h : st.socket <;> simp
  refine ⟨rfl, hact, ?_, hwc.1, hwc.2, ?_⟩
  · unfold reconnectTimerFire wsOpen closeListener
    simp only [hact, if_true]
    cases h : st.opening <;> by_cases hc : st.connected <;>
      simp [hact, hc, List.count_cons]
  · intro evs
    exact (runTransport_inactive (wsClose st) evs hwc.1).2

/-- Witness for C3 on an active connected connection, with the event
sequence close-then-timer after an explicit close. -/
theorem reconnect_vs_explicit_close_witness :
    ((closeListener { Metacom.init 0 with
        active := true
        connected := true
        socket := some 1
        registered := true }).2.2 = 1) ∧
    ((reconnectTimerFire (closeListener { Metacom.init 0 with
        active := true
        connected := true
        socket := some 1
        registered := true }).1 2).2.count TEffect.openInvoked = 1) ∧
    TEffect.openInvoked ∉
      (runTransport (wsClose { Metacom.init 0 with
          active := true
          connected := true
          socket := some 1
          registered := true })
        [.socketClose, .timerFires 2]).2 := by
  have h := reconnect_vs_explicit_close { Metacom.init 0 with
    active := true
    connected := true
    socket := some 1
    registered := true } 2 rfl
  exact ⟨h.1, h.2.2.1, h.2.2.2.2.2 [.socketClose, .timerFires 2]⟩

/-- Helper: iterating call-id assignment adds one per step. -/
theorem iterateCallIds_callId (n : Nat) (st : MState) :
    (iterateCallIds st n).callId = st.callId + n := by
  induction n generalizing st with
  | zero => rfl
  | succ k ih =>
    show (iterateCallIds { st with callId := st.callId + 1 } k).callId = _
    rw [ih]
    simp
    omega

/-- Helper: iterating event-id assignment adds one per step. -/
theorem iterateEventIds_eventId (n : Nat) (st : MState) :
    (iterateEventIds st n).eventId = st.eventId + n := by
  induction n generalizing st with
  | zero => rfl
  | succ k ih =>
    show (iterateEventIds { st with eventId := st.eventId + 1 } k).eventId = _
    rw [ih]
    simp
    omega

/-- C4.  Id validity: call and event ids assigned by the per-connection
pre-incremented counters are strictly increasing and start above zero
(the m-th and n-th assigned ids satisfy 0 < id and monotonicity), and the
dispatcher drops any inbound packet whose id field is falsy before any
registry or stream-map lookup: the call and stream maps are untouched, no
continuation is invoked, no error escapes, only `lastActivity` is set. -/
theorem id_validity (now m n : Nat) (st : MState) (p : Packet)
    (hmn : m < n) (hfalsy : p.callId = 0) :
    0 < (nextCallId (iterateCallIds (Metacom.init now) m)).1 ∧
    (nextCallId (iterateCallIds (Metacom.init now) m)).1 <
      (nextCallId (iterateCallIds (Metacom.init now) n)).1 ∧
    0 < (nextEventId (iterateEventIds (Metacom.init now) m)).1 ∧
    (nextEventId (iterateEventIds (Metacom.init now) m)).1 <
      (nextEventId (iterateEventIds (Metacom.init now) n)).1 ∧
    Metacom.message st now (.packet p) =
      ({ st with lastActivity := now }, [], none) := by
  have hc : ∀ k, (nextCallId (iterateCallIds (Metacom.init now) k)).1 = k + 1 := by
    intro k
    show (iterateCallIds (Metacom.init now) k).callId + 1 = k + 1
    rw [iterateCallIds_callId]
    simp [Metacom.init]
  have he : ∀ k, (nextEventId (iterateEventIds (Metacom.init now) k)).1 = k + 1 := by
    intro k
    show (iterateEventIds (Metacom.init now) k).eventId + 1 = k + 1
    rw [iterateEventIds_eventId]
    simp [Metacom.init]
  refine ⟨?_, ?_, ?_, ?_, ?_⟩
  · rw [hc]; omega
  · rw [hc, hc]; omega
  · rw [he]; omega
  · rw [he, he]; omega
  · simp [Metacom.message, hfalsy]

/-- Witness for C4 at m = 0, n = 2 and a callback packet with id 0. -/
theorem id_validity_witness :
    0 < (nextCallId (iterateCallIds (Metacom.init 0) 0)).1 ∧
    Metacom.message (Metacom.init 0) 7
      (.packet ⟨"callback", 0, some "x", 42, none, none, none, none⟩) =
      ({ Metacom.init 0 with lastActivity := 7 }, [], none) := by
  have h := id_validity 7 0 2 (Metacom.init 0)
    ⟨"callback", 0, some "x", 42, none, none, none, none⟩
    (by decide) (by decide)
  exact ⟨h.1, h.2.2.2.2⟩

/-- C5.  `open()` is idempotent: with a connect operation in flight it
returns that same in-flight operation, changing nothing and creating no
socket; when already connected it resolves immediately, changing nothing
and creating no socket. -/
theorem ws_open_idempotent (st : MState) (p newP : Nat) :
    (st.opening = some p → wsOpen st newP = (st, .inflight p, [])) ∧
    (st.opening = none → st.connected = true →
      wsOpen st newP = (st, .resolvedNow, [])) := by
  constructor
  · intro h
    simp [wsOpen, h]
  · intro h hc
    simp [wsOpen, h, hc]

/-- Witness for C5: an opening connection and a connected connection. -/
theorem ws_open_idempotent_witness :
    wsOpen { Metacom.init 0 with opening := some 3 } 9 =
      ({ Metacom.init 0 with opening := some 3 }, .inflight 3, []) ∧
    wsOpen { Metacom.init 0 with connected := true } 9 =
      ({ Metacom.init 0 with connected := true }, .resolvedNow, []) :=
  ⟨(ws_open_idempotent { Metacom.init 0 with opening := some 3 } 3 9).1 rfl,
   (ws_open_idempotent { Metacom.init 0 with connected := true } 3 9).2
     rfl rfl⟩

/-- C6.  Writable write: on a non-finalized writable stream whose id fits
the frame header, `write(chunk)` emits exactly one binary frame, that
frame decodes back to exactly the stream id and the unchanged chunk, and
`write` reports that further writes are accepted. -/
theorem writable_write_one_frame (w : MetaWritable) (chunk : List Nat)
    (hfin : w.finalized = false) (hid : w.streamId < 4294967296) :
    MetaWritable.write w chunk =
      .ok ([Chunk.encode w.streamId chunk], true) ∧
    Chunk.decode (Chunk.encode w.streamId chunk) =
      some (w.streamId, chunk) := by
  constructor
  · simp [MetaWritable.write, hfin]
  · exact chunk_decode_encode w.streamId chunk hid

/-- Witness for C6: the spec scenario stream id 5, name file.txt, size 10,
chunk [0, 1, 2, 3]. -/
theorem writable_write_one_frame_witness :
    MetaWritable.write ⟨5, "file.txt", 10, false⟩ [0, 1, 2, 3] =
      .ok ([Chunk.encode 5 [0, 1, 2, 3]], true) ∧
    Chunk.decode (Chunk.encode 5 [0, 1, 2, 3]) = some (5, [0, 1, 2, 3]) :=
  writable_write_one_frame ⟨5, "file.txt", 10, false⟩ [0, 1, 2, 3]
    rfl (by decide)

/-- C7.  Stream-control dispatch case analysis: an init packet (name and
integer size present) for an id with no existing stream creates and
registers a new readable stream; an init packet for an id that already
has a stream logs a conflict and leaves the map unchanged; a non-init
packet for an unknown id logs a warning; status end closes the stream and
removes it from the map; status terminate terminates the stream and
removes it from the map; any other shape logs a structure error and is
dropped. -/
theorem stream_dispatch_cases (st : MState) (now : Nat) (p : Packet)
    (hty : p.callType = "stream") (hpos : p.callId ≠ 0) :
    (∀ nm sz, p.name = some nm → nm ≠ "" → p.size = some sz →
      mapLookup p.callId st.streams = none →
      Metacom.message st now (.packet p) =
        ({ st with
            lastActivity := now
            streams := mapSet p.callId ⟨p.callId, nm, sz⟩ st.streams },
         [], none)) ∧
    (∀ s, nameOk p = true → sizeOk p = true →
      mapLookup p.callId st.streams = some s →
      Metacom.message st now (.packet p) =
        ({ st with lastActivity := now },
         [.logError "Stream is already initialized"], none)) ∧
    ((nameOk p && sizeOk p) = false →
      mapLookup p.callId st.streams = none →
      Metacom.message st now (.packet p) =
        ({ st with lastActivity := now },
         [.logError "Stream is not initialized"], none)) ∧
    (∀ s, (nameOk p && sizeOk p) = false →
      mapLookup p.callId st.streams = some s → p.status = some "end" →
      Metacom.message st now (.packet p) =
        ({ st with
            lastActivity := now
            streams := mapErase p.callId st.streams },
         [.closeStream p.callId], none)) ∧
    (∀ s, (nameOk p && sizeOk p) = false →
      mapLookup p.callId st.streams = some s →
      p.status = some "terminate" →
      Metacom.message st now (.packet p) =
        ({ st with
            lastActivity := now
            streams := mapErase p.callId st.streams },
         [.terminateStream p.callId], none)) ∧
    (∀ s, (nameOk p && sizeOk p) = false →
      mapLookup p.callId st.streams = some s →
      p.status ≠ some "end" → p.status ≠ some "terminate" →
      Metacom.message st now (.packet p) =
        ({ st with lastActivity := now },
         [.logError "Stream packet structure error"], none)) := by
  refine ⟨?_, ?_, ?_, ?_, ?_, ?_⟩
  · intro nm sz hn hnm hs hl
    simp [Metacom.message, hty, hpos, nameOk, sizeOk, hn, hnm, hs, hl]
  · intro s hn hs hl
    simp [Metacom.message, hty, hpos, hn, hs, hl]
  · intro hg hl
    simp [Metacom.message, hty, hpos, hg, hl]
  · intro s hg hl hst
    simp [Metacom.message, hty, hpos, hg, hl, hst]
  · intro s hg hl hst
    simp [Metacom.message, hty, hpos, hg, hl, hst]
  · intro s hg hl hst1 hst2
    simp [Metacom.message, hty, hpos, hg, hl, hst1, hst2]

/-- Witness for C7: an init packet for id 7 on a fresh connection creates
and registers the readable stream. -/
theorem stream_dispatch_cases_witness :
    Metacom.message (Metacom.init 0) 3
      (.packet ⟨"stream", 7, some "name", 0, none, some "file.txt",
        some 10, none⟩) =
      ({ Metacom.init 0 with
          lastActivity := 3
          streams := [(7, ⟨7, "file.txt", 10⟩)] }, [], none) := by
  have h := (stream_dispatch_cases (Metacom.init 0) 3
    ⟨"stream", 7, some "name", 0, none, some "file.txt", some 10, none⟩
    rfl (by decide)).1 "file.txt" 10 rfl (by decide) rfl rfl
  simpa [mapSet] using h

/-- C8 counterexample: dispatching an event packet that names an interface
which was never loaded raises a TypeError out of the dispatch routine
(the async function promise rejects) and emits no log entry, so the
failure is neither isolated inside the dispatcher nor logged. -/
theorem dispatch_isolation_counterexample :
    (Metacom.message (Metacom.init 0) 1
      (.packet ⟨"event", 1, some "chat/message", 5, none, none,
        none, none⟩)).2.2 ≠ none ∧
    (Metacom.message (Metacom.init 0) 1
      (.packet ⟨"event", 1, some "chat/message", 5, none, none,
        none, none⟩)).2.1 = [] := by
  constructor
  · intro h
    simp [Metacom.message, Metacom.init] at h
  · rfl

/-- C8 amended.  Dispatch failure isolation, as the code implements it:
dispatching an inbound unit never changes the connection lifecycle state
(`active`, `connected`, `opening`, `registered`); whenever an exception
escapes the textual dispatcher, the call registry and the stream map are
untouched and no action (continuation, log or push) was emitted; the
binary dispatcher never changes any state at all, and when an exception
escapes it (short frame) it too has emitted nothing. -/
theorem dispatch_isolation_amended (st : MState) (now : Nat) (inb : Inbound)
    (frame : List Nat) :
    ((Metacom.message st now inb).1.active = st.active ∧
     (Metacom.message st now inb).1.connected = st.connected ∧
     (Metacom.message st now inb).1.opening = st.opening ∧
     (Metacom.message st now inb).1.registered = st.registered) ∧
    ((Metacom.message st now inb).2.2 ≠ none →
      (Metacom.message st now inb).1.calls = st.calls ∧
      (Metacom.message st now inb).1.streams = st.streams ∧
      (Metacom.message st now inb).2.1 = []) ∧
    (Metacom.binary st frame).1 = st ∧
    ((Metacom.binary st frame).2.2 ≠ none →
      (Metacom.binary st frame).2.1 = []) := by
  have hbin : (Metacom.binary st frame).1 = st ∧
      ((Metacom.binary st frame).2.2 ≠ none →
        (Metacom.binary st frame).2.1 = []) := by
    rcases hd : Chunk.decode frame with _ | ⟨sid, payload⟩
    · simp [Metacom.binary, hd]
    · rcases hl : mapLookup sid st.streams with _ | s <;>
        simp [Metacom.binary, hd, hl]
  have hmsg : ((Metacom.message st now inb).1.active = st.active ∧
      (Metacom.message st now inb).1.connected = st.connected ∧
      (Metacom.message st now inb).1.opening = st.opening ∧
      (Metacom.message st now inb).1.registered = st.registered) ∧
      ((Metacom.message st now inb).2.2 ≠ none →
        (Metacom.message st now inb).1.calls = st.calls ∧
        (Metacom.message st now inb).1.streams = st.streams ∧
        (Metacom.message st now inb).2.1 = []) := by
    cases inb with
    | heartbeat => simp [Metacom.message]
    | malformed => simp [Metacom.message]
    | packet p =>
      by_cases h0 : p.callId = 0
      · simp [Metacom.message, h0]
      · by_cases hcb : p.callType = "callback"
        · rcases hl : mapLookup p.callId st.calls with _ | c
          · simp [Metacom.message, h0, hcb, hl]
          · rcases he : p.error with _ | ⟨m, cd⟩
            · simp [Metacom.message, h0, hcb, hl, he]
            · simp [Metacom.message, h0, hcb, hl, he]
        · by_cases hev : p.callType = "event"
          · rcases ht : p.target with _ | t
            · simp [Metacom.message, h0, hcb, hev, ht]
            · by_cases hin : (t.splitOn "/").head?.getD "" ∈ st.api
              · simp [Metacom.message, h0, hcb, hev, ht, hin]
              · simp [Metacom.message, h0, hcb, hev, ht, hin]
          · by_cases hstr : p.callType = "stream"
            · by_cases hg : (nameOk p && sizeOk p) = true
              · rcases hl : mapLookup p.callId st.streams with _ | s
                · rcases hn : p.name with _ | nm
                  · simp [nameOk, hn] at hg
                  · rcases hs : p.size with _ | sz
                    · simp [sizeOk, hs] at hg
                    · simp [Metacom.message, h0, hcb, hev, hstr, hg, hl,
                        hn, hs]
                · simp [Metacom.message, h0, hcb, hev, hstr, hg, hl]
              · rcases hl : mapLookup p.callId st.streams with _ | s
                · simp [Metacom.message, h0, hcb, hev, hstr, hg, hl]
                · by_cases hend : p.status = some "end"
                  · simp [Metacom.message, h0, hcb, hev, hstr, hg, hl, hend]
                  · by_cases hterm : p.status = some "terminate"
                    · simp [Metacom.message, h0, hcb, hev, hstr, hg, hl,
                        hend, hterm]
                    · simp [Metacom.message, h0, hcb, hev, hstr, hg, hl,
                        hend, hterm]
            · simp [Metacom.message, h0, hcb, hev, hstr]
  exact ⟨hmsg.1, hmsg.2, hbin.1, hbin.2⟩

/-- Witness for C8 amended: the escaping-event case at a concrete input. -/
theorem dispatch_isolation_amended_witness :
    (Metacom.message (Metacom.init 0) 1
      (.packet ⟨"event", 1, some "chat/message", 5, none, none,
        none, none⟩)).1.calls = (Metacom.init 0).calls ∧
    (Metacom.binary (Metacom.init 0) [1, 2]).2.1 = [] := by
  have h := dispatch_isolation_amended (Metacom.init 0) 1
    (.packet ⟨"event", 1, some "chat/message", 5, none, none, none, none⟩)
    [1, 2]
  exact ⟨(h.2.1 (by simp [Metacom.message, Metacom.init])).1,
         h.2.2.2 (by simp [Metacom.binary, Chunk.decode])⟩

/-- C9 counterexample: on the websocket binding, a send attempted while the
connection is not connected returns without updating `lastActivity`
(state with `lastActivity = 0`, send attempted at time 5). -/
theorem send_lastActivity_counterexample :
    ¬ ((wsSend (Metacom.init 0) 5).1.lastActivity = 5) := by
  decide

/-- C9 amended.  `WebsocketTransport.send` updates `lastActivity` and
transmits only when connected; a send attempted while disconnected is
dropped without updating `lastActivity`.  `HttpTransport.send` updates
`lastActivity` on every attempted send regardless of delivery. -/
theorem send_lastActivity_amended (st : MState) (now : Nat) :
    (st.connected = true →
      wsSend st now = ({ st with lastActivity := now }, [.socketSend])) ∧
    (st.connected = false → wsSend st now = (st, [])) ∧
    httpSend st now = ({ st with lastActivity := now }, [.fetchPost]) := by
  refine ⟨?_, ?_, rfl⟩
  · intro h
    simp [wsSend, h]
  · intro h
    simp [wsSend, h]

/-- Witness for C9 amended: connected and disconnected concrete states. -/
theorem send_lastActivity_amended_witness :
    wsSend { Metacom.init 0 with connected := true } 5 =
      ({ Metacom.init 0 with
          connected := true
          lastActivity := 5 }, [.socketSend]) ∧
    wsSend (Metacom.init 0) 5 = (Metacom.init 0, []) := by
  refine ⟨?_, ?_⟩
  · have h := (send_lastActivity_amended
      { Metacom.init 0 with connected := true } 5).1 rfl
    simpa using h
  · exact (send_lastActivity_amended (Metacom.init 0) 5).2.1 rfl

/-- Helper: setting one key leaves lookups of other keys unchanged. -/
theorem mapLookup_mapSet_ne (k k2 : Nat) (v : α) (l : List (Nat × α))
    (h : k2 ≠ k) : mapLookup k2 (mapSet k v l) = mapLookup k2 l := by
  induction l with
  | nil => simp [mapSet, mapLookup, h]
  | cons hd tl ih =>
      obtain ⟨k3, v3⟩ := hd
      by_cases h3 : k = k3
      · subst h3
        simp [mapSet, mapLookup, h]
      · by_cases h4 : k2 = k3
        · simp [mapSet, h3, mapLookup, h4]
        · simp [mapSet, h3, mapLookup, h4, ih]

/-- C10.  The stream map is only ever populated by inbound stream-init
packets with readable streams: any entry of the map after a dispatch step
was either already there or was created by an init packet carried by that
very step; `createStream` increments the counter and builds a writable
without registering it, so on its result `getStream` fails with the
lookup error and an inbound binary frame carrying the writable id is
dropped with a warning instead of being delivered. -/
theorem createStream_unregistered (st : MState) (now : Nat) (inb : Inbound)
    (name : String) (size : Int) (payload : List Nat)
    (hfresh : mapLookup (st.streamId + 1) st.streams = none)
    (hlt : st.streamId + 1 < 4294967296) :
    (Metacom.createStream st name size).1.streams = st.streams ∧
    (Metacom.createStream st name size).2.1.streamId = st.streamId + 1 ∧
    Metacom.getStream (Metacom.createStream st name size).1
      (Metacom.createStream st name size).2.1.streamId =
      .error "Stream is not initialized" ∧
    Metacom.binary (Metacom.createStream st name size).1
      (Chunk.encode (st.streamId + 1) payload) =
      ((Metacom.createStream st name size).1,
       [.warn "Stream is not initialized"], none) ∧
    (∀ id s, mapLookup id (Metacom.message st now inb).1.streams = some s →
      mapLookup id st.streams = some s ∨
      ∃ p nm sz, inb = .packet p ∧ p.callType = "stream" ∧ p.callId = id ∧
        p.name = some nm ∧ p.size = some sz ∧
        s = ⟨id, nm, sz⟩) := by
  refine ⟨rfl, rfl, ?_, ?_, ?_⟩
  · simp [Metacom.getStream, Metacom.createStream, MetaWritable.make, hfresh]
  · simp [Metacom.binary, Metacom.createStream, MetaWritable.make,
      chunk_decode_encode (st.streamId + 1) payload hlt, hfresh]
  · intro id s hlook
    cases inb with
    | heartbeat => exact Or.inl hlook
    | malformed => exact Or.inl hlook
    | packet p =>
      by_cases h0 : p.callId = 0
      · simp [Metacom.message, h0] at hlook
        exact Or.inl hlook
      · by_cases hcb : p.callType = "callback"
        · rcases hl : mapLookup p.callId st.calls with _ | c
          · simp [Metacom.message, h0, hcb, hl] at hlook
            exact Or.inl hlook
          · rcases he : p.error with _ | ⟨m, cd⟩ <;>
              [skip; skip] <;>
              simp [Metacom.message, h0, hcb, hl, he] at hlook <;>
              exact Or.inl hlook
        · by_cases hev : p.callType = "event"
          · rcases ht : p.target with _ | t
            · simp [Metacom.message, h0, hcb, hev, ht] at hlook
              exact Or.inl hlook
            · by_cases hin : (t.splitOn "/").head?.getD "" ∈ st.api <;>
                simp [Metacom.message, h0, hcb, hev, ht, hin] at hlook <;>
                exact Or.inl hlook
          · by_cases hstr : p.callType = "stream"
            · by_cases hg : (nameOk p && sizeOk p) = true
              · rcases hl : mapLookup p.callId st.streams with _ | s2
                · rcases hn : p.name with _ | nm
                  · simp [nameOk, hn] at hg
                  · rcases hs : p.size with _ | sz
                    · simp [sizeOk, hs] at hg
                    · simp [Metacom.message, h0, hcb, hev, hstr, hg, hl,
                        hn, hs] at hlook
                      by_cases hid : id = p.callId
                      · subst hid
                        rw [mapLookup_mapSet_self] at hlook
                        refine Or.inr ⟨p, nm, sz, rfl, hstr, rfl, hn, hs, ?_⟩
                        exact (Option.some_injective _ hlook).symm
                      · rw [mapLookup_mapSet_ne _ _ _ _ hid] at hlook
                        exact Or.inl hlook
                · simp [Metacom.message, h0, hcb, hev, hstr, hg, hl] at hlook
                  exact Or.inl hlook
              · rcases hl : mapLookup p.callId st.streams with _ | s2
                · simp [Metacom.message, h0, hcb, hev, hstr, hg, hl] at hlook
                  exact Or.inl hlook
                · by_cases hend : p.status = some "end"
                  · simp [Metacom.message, h0, hcb, hev, hstr, hg, hl,
                      hend] at hlook
                    by_cases hid : id = p.callId
                    · subst hid
                      rw [mapLookup_mapErase_self] at hlook
                      cases hlook
                    · rw [mapLookup_mapErase_ne _ _ _ hid] at hlook
                      exact Or.inl hlook
                  · by_cases hterm : p.status = some "terminate"
                    · simp [Metacom.message, h0, hcb, hev, hstr, hg, hl,
                        hend, hterm] at hlook
                      by_cases hid : id = p.callId
                      · subst hid
                        rw [mapLookup_mapErase_self] at hlook
                        cases hlook
                      · rw [mapLookup_mapErase_ne _ _ _ hid] at hlook
                        exact Or.inl hlook
                    · simp [Metacom.message, h0, hcb, hev, hstr, hg, hl,
                        hend, hterm] at hlook
                      exact Or.inl hlook
            · simp [Metacom.message, h0, hcb, hev, hstr] at hlook
              exact Or.inl hlook

/-- Witness for C10 on a fresh connection with a created stream of id 1. -/
theorem createStream_unregistered_witness :
    Metacom.getStream (Metacom.createStream (Metacom.init 0) "f" 10).1
      (Metacom.createStream (Metacom.init 0) "f" 10).2.1.streamId =
      .error "Stream is not initialized" ∧
    Metacom.binary (Metacom.createStream (Metacom.init 0) "f" 10).1
      (Chunk.encode 1 [9]) =
      ((Metacom.createStream (Metacom.init 0) "f" 10).1,
       [.warn "Stream is not initialized"], none) := by
  have h := createStream_unregistered (Metacom.init 0) 0 .heartbeat
    "f" 10 [9] rfl (by decide)
  exact ⟨h.2.2.1, h.2.2.2.1⟩
